import Mathlib

/-!
Verification development for the presqt asynchronous-job subsystem.

The definitions below are a shallow embedding of the code in
`presqt/api_v1/views/resource/resource.py` (the `get_zip_format` path),
`presqt/targets/github/utilities/helpers/github_file_data.py`
(`get_github_repository_data`), and — where the repository ships only the
callers or tests of a helper — a model of that helper built from the
specification (each such definition is marked `Modelled from the spec`).

Time is modelled as an integer number of seconds (`Int`); the Python
`timezone.now() + relativedelta(hours=5)` becomes `now + 5 * 3600`.
Filesystem state under `mediafiles/jobs` is modelled as an association
list from ticket name to a per-ticket directory, which is itself an
association list from action-directory name to an `ActionDir` holding the
optional `process_info.json` record and the list of subdirectories.
-/

namespace Presqt

/-- Job status values appearing in `process_info.json` (`in_progress` at
creation in resource.py line 225; terminal values per spec section 4.2). -/
inductive JobStatus
  | in_progress
  | finished
  | failed
  | partial_failure
deriving DecidableEq

/-- The JobRecord persisted in `process_info.json`, with exactly the fields
written by `Resource.get_zip_format` (resource.py lines 223-232). -/
structure ProcessInfo where
  presqt_source_token : String
  status : JobStatus
  expiration : Int
  message : String
  status_code : Option Int
  function_process_id : Option Nat
  download_total_files : Nat
  download_files_finished : Nat
deriving DecidableEq

/-- Hex digit for the digest model. -/
def hexDigit (n : Nat) : Char :=
  if n % 16 < 10 then Char.ofNat (48 + n % 16) else Char.ofNat (87 + n % 16)

/-- One step of a 64-bit FNV-style mixing fold over the credential bytes. -/
def mixStep (acc : Nat) (c : Char) : Nat :=
  (acc * 1099511628211 + c.toNat + 1) % (2 ^ 64)

/-- Seed of the digest: fold of `mixStep` over the credential characters. -/
def hashSeed (token : String) : Nat :=
  token.data.foldl mixStep 14695981039346656037

/-- One step of the output stream of the digest (64-bit LCG). -/
def hashStream (s : Nat) : Nat :=
  (s * 6364136223846793005 + 1442695040888963407) % (2 ^ 64)

/-- Characters of the digest: `n` hex characters drawn from the top nibble
of the stream state. -/
def hashChars : Nat → Nat → List Char
  | 0, _ => []
  | Nat.succ k, s => hexDigit (hashStream s / 2 ^ 60) :: hashChars k (hashStream s)

/-- Modelled from the spec: `hash_tokens` (imported by resource.py but not
under src/) is the TicketIdentity function — a pure, deterministic, one-way
cryptographic digest of the caller credential producing a fixed-length
(64 hex characters, as a sha256 hexdigest) opaque string, stable across
calls and process restarts (spec sections 3 and 4.1). The concrete mixing
function here stands in for the cryptographic digest. -/
def hash_tokens (token : String) : String :=
  String.mk (hashChars 64 (hashSeed token))

/-- Contents of one action directory `mediafiles/jobs/<ticket>/<action>`:
the optional `process_info.json` record plus the resource subdirectories. -/
structure ActionDir where
  record : Option ProcessInfo
  subdirs : List String
deriving DecidableEq

/-- A ticket directory `mediafiles/jobs/<ticket>`: association list from
action-directory name to its contents. -/
abbrev TicketDir := List (String × ActionDir)

/-- The `mediafiles/jobs` tree: association list from ticket to its dir. -/
abbrev Store := List (String × TicketDir)

/-- Association-list lookup of a ticket directory. -/
def lookupTicket : Store → String → Option TicketDir
  | [], _ => none
  | (k, v) :: rest, t => if k = t then some v else lookupTicket rest t

/-- Association-list lookup of an action directory. -/
def lookupAction : TicketDir → String → Option ActionDir
  | [], _ => none
  | (k, v) :: rest, a => if k = a then some v else lookupAction rest a

/-- Set (or add) an action directory inside a ticket directory. -/
def setAction : TicketDir → String → ActionDir → TicketDir
  | [], a, ad => [(a, ad)]
  | (k, v) :: rest, a, ad =>
      if k = a then (k, ad) :: rest else (k, v) :: setAction rest a ad

/-- Set (or add) a ticket directory inside the store. -/
def setTicket : Store → String → TicketDir → Store
  | [], t, td => [(t, td)]
  | (k, v) :: rest, t, td =>
      if k = t then (k, td) :: rest else (k, v) :: setTicket rest t td

/-- The `process_info.json` record found at `ticket/action`, if any. -/
def recordAt (store : Store) (ticket action : String) : Option ProcessInfo :=
  match lookupTicket store ticket with
  | none => none
  | some td =>
      match lookupAction td action with
      | none => none
      | some ad => ad.record

/-- The subdirectories present under `ticket/action`. -/
def subdirs_at (store : Store) (ticket action : String) : List String :=
  match lookupTicket store ticket with
  | none => []
  | some td =>
      match lookupAction td action with
      | none => []
      | some ad => ad.subdirs

/-- Whether a record counts as an active process: status `in_progress` and
not yet expired (spec section 4.2: active means `status = in_progress`,
not expired). -/
def isActive (now : Int) (r : ProcessInfo) : Bool :=
  decide (r.status = JobStatus.in_progress) && !(decide (r.expiration < now))

/-- Whether one action directory under a ticket holds an active record. -/
def activeEntry (now : Int) (p : String × ActionDir) : Bool :=
  match p.2.record with
  | some r => isActive now r
  | none => false

/-- Modelled from the spec: `multiple_process_check` (imported by
resource.py from `presqt.api_v1.utilities.utils.multiple_process_check`,
not under src/) reads the ticket directory and reports whether the user
currently has any process in progress there — i.e. whether any action
directory under the ticket holds a non-terminal, unexpired record
(spec sections 4.2 and 4.3). It only reads; it creates nothing. -/
def multiple_process_check (store : Store) (ticket : String) (now : Int) : Bool :=
  match lookupTicket store ticket with
  | none => false
  | some td => td.any (activeEntry now)

/-- Modelled from the spec: `update_or_create_process_info` (imported by
resource.py, not under src/) durably writes the given record as
`process_info.json` under `root/<ticket>/<action>`, creating the
directories when absent and atomically replacing the record when present
(spec sections 4.2 and 6); it touches nothing else in the directory. -/
def update_or_create_process_info (store : Store) (ticket action : String)
    (r : ProcessInfo) : Store :=
  match lookupTicket store ticket with
  | none => setTicket store ticket [(action, ActionDir.mk (some r) [])]
  | some td =>
      match lookupAction td action with
      | none => setTicket store ticket (setAction td action (ActionDir.mk (some r) []))
      | some ad =>
          setTicket store ticket (setAction td action (ActionDir.mk (some r) ad.subdirs))

/-- Remove every subdirectory under `ticket/action`, keeping the record
(resource.py lines 239-242: `shutil.rmtree` over `os.walk(...)[1]`). -/
def clear_subdirs (store : Store) (ticket action : String) : Store :=
  match lookupTicket store ticket with
  | none => store
  | some td =>
      match lookupAction td action with
      | none => store
      | some ad => setTicket store ticket (setAction td action (ActionDir.mk ad.record []))

/-- The `process_info_obj` dictionary built at creation time
(resource.py lines 223-232): status `in_progress`, expiration five hours
from now, `status_code` null, counters zero. -/
def make_process_info (tok : String) (now : Int) : ProcessInfo :=
  { presqt_source_token := hash_tokens tok
    status := JobStatus.in_progress
    expiration := now + 5 * 3600
    message := "Download is being processed on the server"
    status_code := none
    function_process_id := none
    download_total_files := 0
    download_files_finished := 0 }

/-- An HTTP response: status code plus a JSON-object body modelled as an
ordered field list. -/
structure Resp where
  status : Nat
  body : List (String × String)
deriving DecidableEq

/-- The rejection response of resource.py lines 216-218. -/
def reject_resp : Resp :=
  Resp.mk 400 [("error", "User currently has processes in progress.")]

/-- The 202 response of resource.py lines 257-260: message plus the two
job-status hyperlinks; no other field. -/
def accepted_resp : Resp :=
  Resp.mk 202
    [("message", "The server is processing the request."),
     ("download_job_zip", "job_status/download/zip"),
     ("download_job_json", "job_status/download/json")]

/-- Observable filesystem/process events emitted by the submission path,
in program order. -/
inductive Event
  | writeRecord (ticket action : String)
  | removeSubdir (ticket action sub : String)
  | spawn (action : String)
deriving DecidableEq

/-- Result of a zip-format GET: the response, the resulting store, and the
ordered event trace of the submission path. -/
structure ZipResult where
  resp : Resp
  store : Store
  events : List Event
deriving DecidableEq

/-- The admitted branch of `get_zip_format` (resource.py lines 220-260):
write `process_info.json`, delete every subdirectory already present in
the download job directory, then spawn the worker. -/
def admitted_submission (store : Store) (tok : String) (now : Int) :
    Resp × Store × List Event :=
  let ticket := hash_tokens tok
  let s1 := update_or_create_process_info store ticket "download" (make_process_info tok now)
  let subs := subdirs_at s1 ticket "download"
  let s2 := clear_subdirs s1 ticket "download"
  (accepted_resp, s2,
    Event.writeRecord ticket "download"
      :: subs.map (Event.removeSubdir ticket "download") ++ [Event.spawn "resource_download"])

/-- Embedding of `Resource.get_zip_format` (resource.py lines 193-260):
validate the token header, derive the ticket by hashing the credential,
reject with a 400 error when the user already has a process in progress
(mutating nothing), otherwise write the record, clean leftover
subdirectories, spawn the worker and answer 202. -/
def get_zip_format (store : Store) (tokenHeader : Option String) (now : Int) : ZipResult :=
  match tokenHeader with
  | none =>
      ZipResult.mk
        (Resp.mk 400 [("error", "PresQT Error: presqt-source-token missing in the request headers.")])
        store []
  | some tok =>
      if multiple_process_check store (hash_tokens tok) now then
        ZipResult.mk reject_resp store []
      else
        let t := admitted_submission store tok now
        ZipResult.mk t.1 t.2.1 t.2.2

/-- The path `mediafiles/jobs/<ticket>` of resource.py line 212, as
segments. -/
def ticket_path (ticket : String) : List String :=
  ["mediafiles", "jobs", ticket]

/-- The download job directory `mediafiles/jobs/<ticket>/download` of
resource.py line 220, as segments. -/
def download_ticket_path (ticket : String) : List String :=
  ["mediafiles", "jobs", ticket, "download"]

/-- Layout claimed by the spec (section 6): `root/<action-class>/<ticket>/`,
with the action-class segment before the ticket segment. -/
def spec_layout_path (ticket : String) : List String :=
  ["mediafiles", "jobs", "download", ticket]

/-- Modelled from the spec: `update_process_info` (imported by
github_file_data.py from `presqt.utilities`, not under src/) is the
ProgressTracker setTotal operation — it records the total number of units
to process in the job record (spec section 4.5). -/
def update_process_info (r : ProcessInfo) (n : Nat) : ProcessInfo :=
  { r with download_total_files := n }

/-- Modelled from the spec: `increment_process_info` (imported by
github_file_data.py from `presqt.utilities`, not under src/) is the
ProgressTracker increment operation — it adds one to the number of units
finished in the job record (spec section 4.5). -/
def increment_process_info (r : ProcessInfo) : ProcessInfo :=
  { r with download_files_finished := r.download_files_finished + 1 }

/-- A GitHub repository as it appears in `initial_data`
(github_file_data.py): only the fields the function reads. -/
structure Repo where
  id : Nat
  name : String
deriving DecidableEq

/-- One entry of the resource list built by `get_github_repository_data`
(github_file_data.py lines 33-38). -/
structure ResourceEntry where
  kind : String
  kind_name : String
  container : Option Nat
  id : Nat
  title : String
deriving DecidableEq

/-- The dictionary appended per repository
(github_file_data.py lines 33-38). -/
def repoEntry (repo : Repo) : ResourceEntry :=
  { kind := "container"
    kind_name := "repo"
    container := none
    id := repo.id
    title := repo.name }

/-- The loop of github_file_data.py lines 32-41: append an entry per
repository and increment the progress counter after each. Returns the
resource list, the final record, and the trace of record states observed
after each increment. -/
def githubLoop : List Repo → List ResourceEntry → ProcessInfo →
    List ResourceEntry × ProcessInfo × List ProcessInfo
  | [], res, info => (res, info, [])
  | repo :: rest, res, info =>
      let res2 := res ++ [repoEntry repo]
      let info2 := increment_process_info info
      let t := githubLoop rest res2 info2
      (t.1, t.2.1, info2 :: t.2.2)

/-- Module-level state of github_file_data.py: the list object bound to the
mutable default value of the `resources` parameter (`resources=[]` is
evaluated once at function-definition time and shared by every call that
omits the argument). -/
structure GithubState where
  default_resources : List ResourceEntry
deriving DecidableEq

/-- Embedding of `get_github_repository_data` (github_file_data.py lines
7-43) together with the module state holding the shared default list.
`resources = none` models a call that omits the argument: it appends into
(and returns) the shared default list object, so the module state keeps
the grown list. Returns: the returned list, the module state after the
call, the final record, and the trace of record states observed after the
initial `update_process_info` and after each `increment_process_info`. -/
def get_github_repository_data (m : GithubState) (initial_data : List Repo)
    (resources : Option (List ResourceEntry)) (info : ProcessInfo) :
    List ResourceEntry × GithubState × ProcessInfo × List ProcessInfo :=
  let base :=
    match resources with
    | some rs => rs
    | none => m.default_resources
  let info1 := update_process_info info initial_data.length
  let t := githubLoop initial_data base info1
  let m2 :=
    match resources with
    | some _ => m
    | none => GithubState.mk t.1
  (t.1, m2, t.2.1, info1 :: t.2.2)

/-- Modelled from the spec: the worker-side mutations applied to a job
record after creation (spec sections 4.2 and 4.5; the worker body and
finalization helpers are not under src/): set the total units, increment
the finished units, or finalize with a terminal status, a status code and
a message. None of them touches the expiration. -/
inductive Mutation
  | setTotal (n : Nat)
  | increment
  | finalize (st : JobStatus) (code : Int) (msg : String)

/-- Apply one worker-side mutation to a record. -/
def applyMutation (r : ProcessInfo) : Mutation → ProcessInfo
  | Mutation.setTotal n => update_process_info r n
  | Mutation.increment => increment_process_info r
  | Mutation.finalize st code msg =>
      { r with status := st, status_code := some code, message := msg }

/-- The sequence of record states observed after each mutation. -/
def mutTrace (r : ProcessInfo) : List Mutation → List ProcessInfo
  | [] => []
  | m :: rest => applyMutation r m :: mutTrace (applyMutation r m) rest

/-- Parse outcome for the `process_info.json` of one job directory seen by
the reaper: a well-formed record, or a missing/malformed one. -/
inductive RecordState
  | ok (r : ProcessInfo)
  | corrupt
deriving DecidableEq

/-- One job directory under the reaper root: its name and the parse
outcome of its record. -/
structure SweepDir where
  name : String
  state : RecordState
deriving DecidableEq

/-- Whether the reaper deletes this directory: it holds a well-formed
record whose expiration is before the time of the call. -/
def shouldDelete (now : Int) (d : SweepDir) : Bool :=
  match d.state with
  | RecordState.ok r => decide (r.expiration < now)
  | RecordState.corrupt => false

/-- Modelled from the spec: the `delete_mediafiles` management command
(exercised by test_delete_mediafiles.py but not under src/) is the
ExpirationReaper — for every job directory under the root it parses the
record; if the expiration has passed it deletes the whole directory,
otherwise it retains it; a directory whose record is missing or malformed
is skipped and the sweep continues (spec section 4.6). Returns the names
of the deleted directories and the retained directories, in order. -/
def sweep (now : Int) : List SweepDir → List String × List SweepDir
  | [] => ([], [])
  | d :: ds =>
      let rest := sweep now ds
      if shouldDelete now d then (d.name :: rest.1, rest.2) else (rest.1, d :: rest.2)

/-- Local view of one in-flight submission: whether its admission check has
run, whether it passed, and its response once produced. -/
structure ProcView where
  checked : Bool
  passed : Bool
  resp : Option Resp
deriving DecidableEq

/-- A submission that has not run yet. -/
def ProcView.init : ProcView :=
  ProcView.mk false false none

/-- One atomic step of a submission for credential `tok`: first the
admission check of resource.py line 215 (a pure read of the store), then —
as a separate step — the rest of `get_zip_format`: the admitted branch
(record write, cleanup, spawn, 202) when the check passed, or the 400
rejection otherwise. -/
def submissionStep (tok : String) (now : Int) (pv : ProcView) (store : Store) :
    ProcView × Store :=
  if pv.checked = false then
    (ProcView.mk true (!(multiple_process_check store (hash_tokens tok) now)) none, store)
  else
    match pv.resp with
    | some _ => (pv, store)
    | none =>
        if pv.passed then
          let t := admitted_submission store tok now
          (ProcView.mk true true (some t.1), t.2.1)
        else
          (ProcView.mk true false (some reject_resp), store)

/-- Two near-simultaneous submissions for the same credential, sharing the
store. -/
structure TwoSubs where
  store : Store
  p1 : ProcView
  p2 : ProcView
deriving DecidableEq

/-- Run two interleaved submissions under a schedule: `true` lets the first
submission take its next atomic step, `false` the second. -/
def runTwo (tok : String) (now : Int) : TwoSubs → List Bool → TwoSubs
  | st, [] => st
  | st, b :: rest =>
      if b then
        let t := submissionStep tok now st.p1 st.store
        runTwo tok now (TwoSubs.mk t.2 t.1 st.p2) rest
      else
        let t := submissionStep tok now st.p2 st.store
        runTwo tok now (TwoSubs.mk t.2 st.p1 t.1) rest

/-- Bool predicate: the finished-units counter is non-decreasing along a
list of record states. -/
def monoFinished : List ProcessInfo → Bool
  | [] => true
  | [_] => true
  | a :: b :: rest =>
      decide (a.download_files_finished ≤ b.download_files_finished)
        && monoFinished (b :: rest)

/-- Bool predicate: each state increments the finished counter by exactly
one over its predecessor. -/
def stepsByOne : List ProcessInfo → Bool
  | [] => true
  | [_] => true
  | a :: b :: rest =>
      decide (b.download_files_finished = a.download_files_finished + 1)
        && stepsByOne (b :: rest)

/-- Whether one action directory under a ticket holds only a terminal (or
no) record. -/
def terminalEntry (p : String × ActionDir) : Bool :=
  match p.2.record with
  | some r => decide (r.status ≠ JobStatus.in_progress)
  | none => true

/-- Whether every record under the ticket has reached a terminal state. -/
def allTerminal (store : Store) (ticket : String) : Bool :=
  match lookupTicket store ticket with
  | none => true
  | some td => td.all terminalEntry

/-! Helper lemmas about the association-list store. -/

theorem lookupTicket_setTicket_self (s : Store) (t : String) (td : TicketDir) :
    lookupTicket (setTicket s t td) t = some td := by
  induction s with
  | nil => simp [setTicket, lookupTicket]
  | cons p rest ih =>
      obtain ⟨k, v⟩ := p
      by_cases h : k = t
      · simp [setTicket, lookupTicket, h]
      · simp [setTicket, lookupTicket, h, ih]

theorem lookupAction_setAction_self (td : TicketDir) (a : String) (ad : ActionDir) :
    lookupAction (setAction td a ad) a = some ad := by
  induction td with
  | nil => simp [setAction, lookupAction]
  | cons p rest ih =>
      obtain ⟨k, v⟩ := p
      by_cases h : k = a
      · simp [setAction, lookupAction, h]
      · simp [setAction, lookupAction, h, ih]

theorem recordAt_update_self (store : Store) (t a : String) (r : ProcessInfo) :
    recordAt (update_or_create_process_info store t a r) t a = some r := by
  cases hl : lookupTicket store t with
  | none =>
      simp [update_or_create_process_info, recordAt, hl,
        lookupTicket_setTicket_self, lookupAction]
  | some td =>
      cases ha : lookupAction td a with
      | none =>
          simp [update_or_create_process_info, recordAt, hl, ha,
            lookupTicket_setTicket_self, lookupAction_setAction_self]
      | some ad =>
          simp [update_or_create_process_info, recordAt, hl, ha,
            lookupTicket_setTicket_self, lookupAction_setAction_self]

theorem subdirs_at_update (store : Store) (t a : String) (r : ProcessInfo) :
    subdirs_at (update_or_create_process_info store t a r) t a = subdirs_at store t a := by
  cases hl : lookupTicket store t with
  | none =>
      simp [update_or_create_process_info, subdirs_at, hl,
        lookupTicket_setTicket_self, lookupAction]
  | some td =>
      cases ha : lookupAction td a with
      | none =>
          simp [update_or_create_process_info, subdirs_at, hl, ha,
            lookupTicket_setTicket_self, lookupAction_setAction_self]
      | some ad =>
          simp [update_or_create_process_info, subdirs_at, hl, ha,
            lookupTicket_setTicket_self, lookupAction_setAction_self]

theorem subdirs_at_clear (store : Store) (t a : String) :
    subdirs_at (clear_subdirs store t a) t a = [] := by
  cases hl : lookupTicket store t with
  | none => simp [clear_subdirs, subdirs_at, hl]
  | some td =>
      cases ha : lookupAction td a with
      | none => simp [clear_subdirs, subdirs_at, hl, ha]
      | some ad =>
          simp [clear_subdirs, subdirs_at, hl, ha,
            lookupTicket_setTicket_self, lookupAction_setAction_self]

theorem recordAt_clear (store : Store) (t a : String) :
    recordAt (clear_subdirs store t a) t a = recordAt store t a := by
  cases hl : lookupTicket store t with
  | none => simp [clear_subdirs, hl]
  | some td =>
      cases ha : lookupAction td a with
      | none => simp [clear_subdirs, hl, ha]
      | some ad =>
          simp [clear_subdirs, recordAt, hl, ha,
            lookupTicket_setTicket_self, lookupAction_setAction_self]

theorem recordAt_admitted (store : Store) (tok : String) (now : Int) :
    recordAt (admitted_submission store tok now).2.1 (hash_tokens tok) "download"
      = some (make_process_info tok now) := by
  show recordAt
      (clear_subdirs
        (update_or_create_process_info store (hash_tokens tok) "download"
          (make_process_info tok now))
        (hash_tokens tok) "download")
      (hash_tokens tok) "download" = some (make_process_info tok now)
  rw [recordAt_clear, recordAt_update_self]

theorem subdirs_at_admitted (store : Store) (tok : String) (now : Int) :
    subdirs_at (admitted_submission store tok now).2.1 (hash_tokens tok) "download" = [] := by
  show subdirs_at
      (clear_subdirs
        (update_or_create_process_info store (hash_tokens tok) "download"
          (make_process_info tok now))
        (hash_tokens tok) "download")
      (hash_tokens tok) "download" = []
  rw [subdirs_at_clear]

theorem events_admitted (store : Store) (tok : String) (now : Int) :
    (admitted_submission store tok now).2.2
      = Event.writeRecord (hash_tokens tok) "download"
          :: (subdirs_at store (hash_tokens tok) "download").map
              (Event.removeSubdir (hash_tokens tok) "download")
          ++ [Event.spawn "resource_download"] := by
  show Event.writeRecord (hash_tokens tok) "download"
        :: (subdirs_at
              (update_or_create_process_info store (hash_tokens tok) "download"
                (make_process_info tok now))
              (hash_tokens tok) "download").map
            (Event.removeSubdir (hash_tokens tok) "download")
        ++ [Event.spawn "resource_download"]
      = Event.writeRecord (hash_tokens tok) "download"
          :: (subdirs_at store (hash_tokens tok) "download").map
              (Event.removeSubdir (hash_tokens tok) "download")
          ++ [Event.spawn "resource_download"]
  rw [subdirs_at_update]

theorem githubLoop_resources (rs : List Repo) :
    ∀ (res : List ResourceEntry) (info : ProcessInfo),
    (githubLoop rs res info).1 = res ++ rs.map repoEntry := by
  induction rs with
  | nil => intro res info; simp [githubLoop]
  | cons repo rest ih => intro res info; simp [githubLoop, ih]

theorem githubLoop_final_finished (rs : List Repo) :
    ∀ (res : List ResourceEntry) (info : ProcessInfo),
    (githubLoop rs res info).2.1.download_files_finished
      = info.download_files_finished + rs.length := by
  induction rs with
  | nil => intro res info; simp [githubLoop]
  | cons repo rest ih =>
      intro res info
      simp [githubLoop, ih, increment_process_info]
      omega

theorem githubLoop_final_total (rs : List Repo) :
    ∀ (res : List ResourceEntry) (info : ProcessInfo),
    (githubLoop rs res info).2.1.download_total_files = info.download_total_files := by
  induction rs with
  | nil => intro res info; simp [githubLoop]
  | cons repo rest ih => intro res info; simp [githubLoop, ih, increment_process_info]

theorem githubLoop_mono (rs : List Repo) :
    ∀ (res : List ResourceEntry) (info : ProcessInfo),
    monoFinished (info :: (githubLoop rs res info).2.2) = true := by
  induction rs with
  | nil => intro res info; simp [githubLoop, monoFinished]
  | cons repo rest ih =>
      intro res info
      simp only [githubLoop, monoFinished, Bool.and_eq_true, decide_eq_true_eq]
      exact ⟨by simp [increment_process_info], ih (res ++ [repoEntry repo]) _⟩

theorem githubLoop_steps (rs : List Repo) :
    ∀ (res : List ResourceEntry) (info : ProcessInfo),
    stepsByOne (info :: (githubLoop rs res info).2.2) = true := by
  induction rs with
  | nil => intro res info; simp [githubLoop, stepsByOne]
  | cons repo rest ih =>
      intro res info
      simp only [githubLoop, stepsByOne, Bool.and_eq_true, decide_eq_true_eq]
      exact ⟨by simp [increment_process_info], ih (res ++ [repoEntry repo]) _⟩

theorem githubLoop_bounded (rs : List Repo) :
    ∀ (res : List ResourceEntry) (info : ProcessInfo),
    info.download_files_finished + rs.length ≤ info.download_total_files →
    ((githubLoop rs res info).2.2).all
      (fun s => decide (s.download_files_finished ≤ s.download_total_files)) = true := by
  induction rs with
  | nil => intro res info _; simp [githubLoop]
  | cons repo rest ih =>
      intro res info h
      simp only [githubLoop, List.all_cons, Bool.and_eq_true, decide_eq_true_eq]
      constructor
      · simp only [increment_process_info]
        simp only [List.length_cons] at h
        omega
      · apply ih
        simp only [increment_process_info]
        simp only [List.length_cons] at h
        omega

theorem applyMutation_expiration (r : ProcessInfo) (m : Mutation) :
    (applyMutation r m).expiration = r.expiration := by
  cases m <;> simp [applyMutation, update_process_info, increment_process_info]

theorem mutTrace_expiration (muts : List Mutation) :
    ∀ (r : ProcessInfo),
    (mutTrace r muts).all (fun s => decide (s.expiration = r.expiration)) = true := by
  induction muts with
  | nil => intro r; simp [mutTrace]
  | cons m rest ih =>
      intro r
      simp only [mutTrace, List.all_cons, Bool.and_eq_true, decide_eq_true_eq]
      constructor
      · exact applyMutation_expiration r m
      · have h := ih (applyMutation r m)
        rw [applyMutation_expiration r m] at h
        exact h

theorem sweep_deleted (now : Int) (dirs : List SweepDir) :
    (sweep now dirs).1 = (dirs.filter (shouldDelete now)).map SweepDir.name := by
  induction dirs with
  | nil => simp [sweep]
  | cons d ds ih =>
      by_cases h : shouldDelete now d = true
      · simp [sweep, h, List.filter_cons, ih]
      · simp only [Bool.not_eq_true] at h
        simp [sweep, h, List.filter_cons, ih]

theorem sweep_retained (now : Int) (dirs : List SweepDir) :
    (sweep now dirs).2 = dirs.filter (fun d => !(shouldDelete now d)) := by
  induction dirs with
  | nil => simp [sweep]
  | cons d ds ih =>
      by_cases h : shouldDelete now d = true
      · simp [sweep, h, List.filter_cons, ih]
      · simp only [Bool.not_eq_true] at h
        simp [sweep, h, List.filter_cons, ih]

theorem sweep_nothing_to_delete (now : Int) (dirs : List SweepDir)
    (h : ∀ d ∈ dirs, shouldDelete now d = false) :
    (sweep now dirs).1 = [] := by
  rw [sweep_deleted]
  have : dirs.filter (shouldDelete now) = [] := by
    rw [List.filter_eq_nil_iff]
    intro d hd
    simp [h d hd]
  rw [this]
  simp

theorem hashChars_length (n : Nat) : ∀ (s : Nat), (hashChars n s).length = n := by
  induction n with
  | zero => intro s; simp [hashChars]
  | succ k ih => intro s; simp [hashChars, ih]

theorem hash_tokens_length (tok : String) : (hash_tokens tok).length = 64 := by
  show (String.mk (hashChars 64 (hashSeed tok))).length = 64
  simp [String.length, hashChars_length]

theorem github_components (m : GithubState) (repos : List Repo)
    (resources : Option (List ResourceEntry)) (info : ProcessInfo) :
    (get_github_repository_data m repos resources info).1
        = (githubLoop repos (resources.getD m.default_resources)
            (update_process_info info repos.length)).1
      ∧ (get_github_repository_data m repos resources info).2.2.1
          = (githubLoop repos (resources.getD m.default_resources)
              (update_process_info info repos.length)).2.1
      ∧ (get_github_repository_data m repos resources info).2.2.2
          = update_process_info info repos.length
              :: (githubLoop repos (resources.getD m.default_resources)
                  (update_process_info info repos.length)).2.2 := by
  cases resources <;> simp [get_github_repository_data, Option.getD]

theorem check_true_of_active (store : Store) (ticket : String) (now : Int)
    (td : TicketDir) (p : String × ActionDir) (r : ProcessInfo)
    (hl : lookupTicket store ticket = some td) (hm : p ∈ td)
    (hr : p.2.record = some r) (hs : r.status = JobStatus.in_progress)
    (he : ¬ r.expiration < now) :
    multiple_process_check store ticket now = true := by
  unfold multiple_process_check
  rw [hl, List.any_eq_true]
  refine ⟨p, hm, ?_⟩
  unfold activeEntry
  rw [hr]
  unfold isActive
  simp [hs, he]

theorem check_false_of_terminal (store : Store) (ticket : String) (now : Int)
    (h : allTerminal store ticket = true) :
    multiple_process_check store ticket now = false := by
  unfold allTerminal at h
  unfold multiple_process_check
  cases hl : lookupTicket store ticket with
  | none => rfl
  | some td =>
      rw [hl] at h
      rw [List.any_eq_false]
      intro p hp
      have hterm := (List.all_eq_true.mp h) p hp
      unfold terminalEntry at hterm
      unfold activeEntry isActive
      cases hrec : p.2.record with
      | none => simp
      | some r =>
          rw [hrec] at hterm
          simp only [decide_eq_true_eq] at hterm
          simp [hterm]

/-! Claim theorems. -/

/-- C3: a single reaper sweep deletes exactly the job directories whose
recorded expiration is before the time of the call and retains all the
others; an immediately repeated sweep (same `now`) deletes nothing new;
every directory whose record is missing or malformed is retained
(skipped), and dropping the corrupt directories beforehand changes nothing
about what the sweep deletes — corruption of one job never blocks cleanup
of the rest. -/
theorem reaper_C3 (now : Int) (dirs : List SweepDir) :
    (sweep now dirs).1 = (dirs.filter (shouldDelete now)).map SweepDir.name
  ∧ (sweep now dirs).2 = dirs.filter (fun d => !(shouldDelete now d))
  ∧ (sweep now (sweep now dirs).2).1 = []
  ∧ (dirs.filter (fun d => decide (d.state = RecordState.corrupt))).all
      (fun d => decide (d ∈ (sweep now dirs).2)) = true
  ∧ (sweep now (dirs.filter (fun d => !(decide (d.state = RecordState.corrupt))))).1
      = (sweep now dirs).1 := by
  refine ⟨sweep_deleted now dirs, sweep_retained now dirs, ?_, ?_, ?_⟩
  · apply sweep_nothing_to_delete
    intro d hd
    rw [sweep_retained] at hd
    have hm := List.mem_filter.mp hd
    simpa using hm.2
  · rw [List.all_eq_true]
    intro d hd
    have hm := List.mem_filter.mp hd
    have hc : d.state = RecordState.corrupt := by simpa using hm.2
    simp only [decide_eq_true_eq]
    rw [sweep_retained]
    refine List.mem_filter.mpr ⟨hm.1, ?_⟩
    simp [shouldDelete, hc]
  · rw [sweep_deleted, sweep_deleted, List.filter_filter]
    refine congrArg (List.map SweepDir.name) ?_
    apply List.filter_congr
    intro d _
    cases hs : d.state with
    | ok r => simp [shouldDelete, hs]
    | corrupt => simp [shouldDelete, hs]

/-- C4: starting from the record written at creation (counters 0/0), the
observable sequence of record states produced by
`get_github_repository_data` — the state after the total is set to the
number of repositories and the state after each increment — has a
monotonically non-decreasing finished counter that increases by exactly
one per processed item and never exceeds the total counter at any
intermediate read; the final record shows `repos.length` of
`repos.length` units. -/
theorem github_C4 (tok : String) (now : Int) (m : GithubState)
    (repos : List Repo) (resources : Option (List ResourceEntry)) :
    (make_process_info tok now).download_files_finished = 0
  ∧ (make_process_info tok now).download_total_files = 0
  ∧ (((get_github_repository_data m repos resources (make_process_info tok now)).2.2.2).headD
        (make_process_info tok now)).download_total_files = repos.length
  ∧ monoFinished ((make_process_info tok now)
        :: (get_github_repository_data m repos resources (make_process_info tok now)).2.2.2) = true
  ∧ stepsByOne
        ((get_github_repository_data m repos resources (make_process_info tok now)).2.2.2) = true
  ∧ (((make_process_info tok now)
        :: (get_github_repository_data m repos resources (make_process_info tok now)).2.2.2).all
        (fun s => decide (s.download_files_finished ≤ s.download_total_files))) = true
  ∧ (get_github_repository_data m repos resources
        (make_process_info tok now)).2.2.1.download_files_finished = repos.length
  ∧ (get_github_repository_data m repos resources
        (make_process_info tok now)).2.2.1.download_total_files = repos.length := by
  obtain ⟨h1, h2, h3⟩ := github_components m repos resources (make_process_info tok now)
  refine ⟨rfl, rfl, ?_, ?_, ?_, ?_, ?_, ?_⟩
  · rw [h3]
    simp [update_process_info]
  · rw [h3]
    simp only [monoFinished, Bool.and_eq_true, decide_eq_true_eq]
    refine ⟨by simp [update_process_info], githubLoop_mono repos _ _⟩
  · rw [h3]
    exact githubLoop_steps repos _ _
  · rw [h3]
    simp only [List.all_cons, Bool.and_eq_true, decide_eq_true_eq]
    refine ⟨by simp [make_process_info], by simp [update_process_info, make_process_info], ?_⟩
    apply githubLoop_bounded
    simp [update_process_info, make_process_info]
  · rw [h2, githubLoop_final_finished]
    simp [update_process_info, make_process_info]
  · rw [h2, githubLoop_final_total]
    simp [update_process_info]

/-- C5: the record written at admission has status `in_progress`, a null
`status_code`, and an expiration of exactly creation time plus the
five-hour ttl; along any sequence of worker-side mutations the expiration
stays at that value at every observed state, so it never decreases. -/
theorem resource_C5 (tok : String) (now : Int) (muts : List Mutation) :
    (make_process_info tok now).status = JobStatus.in_progress
  ∧ (make_process_info tok now).status_code = none
  ∧ (make_process_info tok now).expiration = now + 5 * 3600
  ∧ (mutTrace (make_process_info tok now) muts).all
      (fun s => decide (s.expiration = now + 5 * 3600)) = true :=
  ⟨rfl, rfl, rfl, mutTrace_expiration muts (make_process_info tok now)⟩

/-- C6: the ticket identity is a pure deterministic function of the
credential (same credential, same ticket, in this run or any other); the
persisted record stores as its credential fingerprint exactly the hashed
value — which equals the ticket both at creation and in the record kept
after an admitted submission — and, the digest having fixed length 64,
the stored fingerprint is never the raw credential for any credential
whose length differs from 64. -/
theorem hash_C6 (store : Store) (tok : String) (now : Int) :
    hash_tokens tok = hash_tokens tok
  ∧ (make_process_info tok now).presqt_source_token = hash_tokens tok
  ∧ (hash_tokens tok).length = 64
  ∧ (recordAt (admitted_submission store tok now).2.1 (hash_tokens tok) "download").map
      (fun r => r.presqt_source_token) = some (hash_tokens tok)
  ∧ (tok.length ≠ 64 → (make_process_info tok now).presqt_source_token ≠ tok) := by
  refine ⟨rfl, rfl, hash_tokens_length tok, ?_, ?_⟩
  · rw [recordAt_admitted]
    rfl
  · intro hlen heq
    apply hlen
    have hht : hash_tokens tok = tok := heq
    rw [← hht]
    exact hash_tokens_length tok

/-- Witness for C6 at the concrete credential "t". -/
theorem hash_C6_witness :
    "t".length ≠ 64 ∧ (make_process_info "t" 0).presqt_source_token ≠ "t" :=
  ⟨by decide, (hash_C6 [] "t" 0).2.2.2.2 (by decide)⟩

/-- C10 counterexample: because the `resources=[]` default is one shared
list object, a second call that omits `resources` returns a list of length
2 for a one-element `initial_data`, refuting "its length equals
len(initial_data)" for every such call. -/
theorem github_C10_cex :
    (get_github_repository_data
        (get_github_repository_data (GithubState.mk []) [Repo.mk 1 "repo1"] none
          (make_process_info "t" 0)).2.1
        [Repo.mk 1 "repo1"] none
        (get_github_repository_data (GithubState.mk []) [Repo.mk 1 "repo1"] none
          (make_process_info "t" 0)).2.2.1).1.length
      ≠ ([Repo.mk 1 "repo1"] : List Repo).length := by
  decide

/-- C10 amended: a call to `get_github_repository_data` returns the base
list — the explicit `resources` argument, or the shared default list when
the argument is omitted — extended by exactly one container entry per
element of `initial_data`; hence an omitted-argument call returns
`len(default) + len(initial_data)` entries (and exactly `len(initial_data)`
only when the shared default list is still empty, e.g. on the first such
call), and the shared default list keeps the grown value. -/
theorem github_C10_amended (m : GithubState) (repos : List Repo)
    (resources : Option (List ResourceEntry)) (info : ProcessInfo) :
    (get_github_repository_data m repos resources info).1
        = (resources.getD m.default_resources) ++ repos.map repoEntry
  ∧ (get_github_repository_data m repos none info).1.length
      = m.default_resources.length + repos.length
  ∧ (get_github_repository_data m repos none info).2.1.default_resources
      = m.default_resources ++ repos.map repoEntry
  ∧ (get_github_repository_data (GithubState.mk []) repos none info).1.length
      = repos.length := by
  refine ⟨?_, ?_, ?_, ?_⟩
  · rw [(github_components m repos resources info).1, githubLoop_resources]
  · rw [(github_components m repos none info).1, githubLoop_resources]
    simp
  · simp [get_github_repository_data, githubLoop_resources]
  · rw [(github_components (GithubState.mk []) repos none info).1, githubLoop_resources]
    simp

/-- C1: while the ticket's directory holds a record that is `in_progress`
and unexpired, a second submission for the same hashed credential is
rejected with the client-visible 400 conflict error, and the rejection
leaves the store untouched and performs no filesystem or process event;
once every record under the ticket is terminal, a new submission for the
same identity is accepted. -/
theorem resource_C1 (store : Store) (tok : String) (now : Int) :
    ((∃ td p r, lookupTicket store (hash_tokens tok) = some td ∧ p ∈ td
        ∧ (Prod.snd p).record = some r ∧ r.status = JobStatus.in_progress
        ∧ ¬ r.expiration < now) →
      get_zip_format store (some tok) now = ZipResult.mk reject_resp store [])
  ∧ (allTerminal store (hash_tokens tok) = true →
      (get_zip_format store (some tok) now).resp = accepted_resp) := by
  constructor
  · rintro ⟨td, p, r, hl, hm, hr, hs, he⟩
    have hc := check_true_of_active store (hash_tokens tok) now td p r hl hm hr hs he
    simp [get_zip_format, hc]
  · intro ht
    have hc := check_false_of_terminal store (hash_tokens tok) now ht
    simp [get_zip_format, hc, admitted_submission]

/-- Witness for C1: a concrete active record causes the concrete 400
rejection without mutation, and the same store with the record finalized
is accepted. -/
theorem resource_C1_witness :
    get_zip_format
        [(hash_tokens "t", [("download", ActionDir.mk (some (make_process_info "t" 0)) [])])]
        (some "t") 3
      = ZipResult.mk reject_resp
          [(hash_tokens "t", [("download", ActionDir.mk (some (make_process_info "t" 0)) [])])]
          []
  ∧ (get_zip_format
        [(hash_tokens "t",
          [("download",
            ActionDir.mk (some { make_process_info "t" 0 with status := JobStatus.finished })
              [])])]
        (some "t") 3).resp = accepted_resp := by
  constructor
  · exact (resource_C1
      [(hash_tokens "t", [("download", ActionDir.mk (some (make_process_info "t" 0)) [])])]
      "t" 3).1
      ⟨[("download", ActionDir.mk (some (make_process_info "t" 0)) [])],
       ("download", ActionDir.mk (some (make_process_info "t" 0)) []),
       make_process_info "t" 0,
       by simp [lookupTicket], by simp, rfl, rfl, by decide⟩
  · exact (resource_C1
      [(hash_tokens "t",
        [("download",
          ActionDir.mk (some { make_process_info "t" 0 with status := JobStatus.finished })
            [])])]
      "t" 3).2
      (by simp [allTerminal, lookupTicket, terminalEntry])

/-- C2 counterexample: the admission check and the record creation are two
separate steps, so under the interleaving check-check-create-create both
near-simultaneous submissions for the same credential pass admission and
both are answered 202; moreover the creation primitive is
update-or-create, which silently overwrites an existing record instead of
failing when the directory already exists. -/
theorem resource_C2_cex :
    (runTwo "t" 0 (TwoSubs.mk [] ProcView.init ProcView.init)
        [true, false, true, false]).p1.resp = some accepted_resp
  ∧ (runTwo "t" 0 (TwoSubs.mk [] ProcView.init ProcView.init)
        [true, false, true, false]).p2.resp = some accepted_resp
  ∧ recordAt
        (update_or_create_process_info
          (update_or_create_process_info [] (hash_tokens "t") "download"
            (make_process_info "t" 0))
          (hash_tokens "t") "download" (make_process_info "t" 5))
        (hash_tokens "t") "download"
      = some (make_process_info "t" 5) := by
  decide

/-- C2 amended: the admission check of resource.py line 215 and the record
creation of line 233 are two separate steps — the check step mutates
nothing, and whenever the store holds no active record for the identity,
the interleaving in which both submissions run their check before either
creates its record admits both (both answered 202) — rather than a single
exclusive-create admission transaction. -/
theorem resource_C2_amended (store : Store) (tok : String) (now : Int)
    (h : multiple_process_check store (hash_tokens tok) now = false) :
    (submissionStep tok now ProcView.init store).2 = store
  ∧ (runTwo tok now (TwoSubs.mk store ProcView.init ProcView.init)
        [true, false, true, false]).p1.resp = some accepted_resp
  ∧ (runTwo tok now (TwoSubs.mk store ProcView.init ProcView.init)
        [true, false, true, false]).p2.resp = some accepted_resp := by
  refine ⟨by simp [submissionStep, ProcView.init], ?_, ?_⟩ <;>
    simp [runTwo, submissionStep, ProcView.init, h, admitted_submission]

/-- Witness for C2 amended: from the empty store both interleaved
submissions are admitted. -/
theorem resource_C2_amended_witness :
    (runTwo "t" 0 (TwoSubs.mk [] ProcView.init ProcView.init)
        [true, false, true, false]).p1.resp = some accepted_resp :=
  (resource_C2_amended [] "t" 0 rfl).2.1

/-- C7 (code bug): at a valid zip-format submission on a fresh store the
code answers 202 Accepted, but the response body fields are exactly
message, download_job_zip and download_job_json — the body carries no
ticket field, contradicting both the endpoint docstring (which documents a
`ticket_number` member of the 202 body) and the claim. -/
theorem resource_C7_bug :
    (get_zip_format [] (some "t") 0).resp.status = 202
  ∧ (get_zip_format [] (some "t") 0).resp.body.map Prod.fst
      = ["message", "download_job_zip", "download_job_json"]
  ∧ "ticket_number" ∉ (get_zip_format [] (some "t") 0).resp.body.map Prod.fst := by
  decide

/-- C8 counterexample: the download job directory computed by the code is
`mediafiles/jobs/<ticket>/download`, not the claimed
`root/<action-class>/<ticket>/` — the action segment comes after the
ticket segment. -/
theorem resource_C8_cex :
    download_ticket_path "abc123" ≠ spec_layout_path "abc123" := by
  decide

/-- C8 amended: the durable job directory is laid out as
`root/<ticket>/<action-class>/` — the ticket segment before the action
segment — and after an admitted submission that directory contains the
`process_info.json` job record. -/
theorem resource_C8_amended (store : Store) (tok : String) (now : Int)
    (h : multiple_process_check store (hash_tokens tok) now = false) :
    download_ticket_path (hash_tokens tok) = ticket_path (hash_tokens tok) ++ ["download"]
  ∧ recordAt (get_zip_format store (some tok) now).store (hash_tokens tok) "download"
      = some (make_process_info tok now) := by
  refine ⟨rfl, ?_⟩
  simp only [get_zip_format, h, Bool.false_eq_true, if_false]
  exact recordAt_admitted store tok now

/-- Witness for C8 amended: an admitted submission on the empty store
leaves the record under ticket/download. -/
theorem resource_C8_amended_witness :
    recordAt (get_zip_format [] (some "t") 0).store (hash_tokens "t") "download"
      = some (make_process_info "t" 0) :=
  (resource_C8_amended [] "t" 0 rfl).2

/-- C9: on an admitted zip submission, every subdirectory already present
under the ticket's download job directory gets a delete event, all of them
strictly before the worker-spawn event (the event trace is exactly
record-write, then the deletions in order, then the spawn), and no
subdirectory is left in the resulting download job directory. -/
theorem resource_C9 (store : Store) (tok : String) (now : Int)
    (h : multiple_process_check store (hash_tokens tok) now = false) :
    (get_zip_format store (some tok) now).events
        = Event.writeRecord (hash_tokens tok) "download"
            :: (subdirs_at store (hash_tokens tok) "download").map
                (Event.removeSubdir (hash_tokens tok) "download")
            ++ [Event.spawn "resource_download"]
  ∧ subdirs_at (get_zip_format store (some tok) now).store (hash_tokens tok) "download"
      = [] := by
  constructor
  · simp only [get_zip_format, h, Bool.false_eq_true, if_false]
    exact events_admitted store tok now
  · simp only [get_zip_format, h, Bool.false_eq_true, if_false]
    exact subdirs_at_admitted store tok now

/-- Witness for C9: a leftover artifact subdirectory from a previous,
finished job for the same credential is removed before the spawn event. -/
theorem resource_C9_witness :
    (get_zip_format
        [(hash_tokens "t",
          [("download",
            ActionDir.mk (some { make_process_info "t" 0 with status := JobStatus.failed })
              ["osf_download_5cd98"])])]
        (some "t") 0).events
      = Event.writeRecord (hash_tokens "t") "download"
          :: (subdirs_at
                [(hash_tokens "t",
                  [("download",
                    ActionDir.mk
                      (some { make_process_info "t" 0 with status := JobStatus.failed })
                      ["osf_download_5cd98"])])]
                (hash_tokens "t") "download").map
              (Event.removeSubdir (hash_tokens "t") "download")
          ++ [Event.spawn "resource_download"] :=
  (resource_C9
    [(hash_tokens "t",
      [("download",
        ActionDir.mk (some { make_process_info "t" 0 with status := JobStatus.failed })
          ["osf_download_5cd98"])])]
    "t" 0
    (by simp [multiple_process_check, lookupTicket, activeEntry, isActive])).1

end Presqt
